import Mathlib

/-!
Formal model of the LiveChat realtime audio pipeline.

The definitions below are a shallow embedding of the audio helper
functions and the session lifecycle of the LiveChat component:
the base64 wire-text helpers, the PCM encoder (createBlob) and decoder
(decodeAudioData), the playback scheduler embedded in the onmessage
handler, and the start/stop session state machine.

Modelling conventions:
- JS binary strings (latin1) are modelled as lists of character codes
  (List Nat with every element below 256), so String.fromCharCode and
  charCodeAt are the identity on codes.
- Float samples are modelled as rationals.  All arithmetic performed on
  them by the source (multiplication and division by the power of two
  32768, truncation to an integer) is exact in binary floating point, so
  the rational model agrees with the float computation.
- Machine 16-bit integers are modelled as mathematical integers reduced
  explicitly modulo 2^16.
-/

namespace LiveChat

/-- JS coercion of an integer to a signed 16-bit value (the ToInt16
conversion an assignment into an Int16Array performs): reduce modulo
2^16 and reinterpret the residue as a signed value. -/
def toInt16 (n : ℤ) : ℤ :=
  if 32768 ≤ n % 65536 then n % 65536 - 65536 else n % 65536

/-- Truncation of a rational toward zero, as JS ToIntegerOrInfinity
truncates a float when it is stored into an integer array: floor for
nonnegative input, ceiling (written as minus the floor of the negation,
keeping the definition executable) for negative input. -/
def truncRat (x : ℚ) : ℤ := if 0 ≤ x then x.floor else -(-x).floor

/-- One sample of createBlob: the statement int16[i] = data[i] * 32768,
i.e. scale by 32768, truncate, and wrap into a signed 16-bit value. -/
def encodeSample (x : ℚ) : ℤ := toInt16 (truncRat (x * 32768))

/-- One sample of decodeAudioData: channelData[i] = dataInt16[i] / 32768. -/
def decodeSample (n : ℤ) : ℚ := (n : ℚ) / 32768

/-- Encoding one sample followed by decoding it. -/
def encodeDecodeSample (x : ℚ) : ℚ := decodeSample (encodeSample x)

/-- Character of one base64 sextet, the standard base64 alphabet used by
the platform btoa. -/
def sextetChar (n : ℕ) : Char :=
  if n < 26 then Char.ofNat (65 + n)
  else if n < 52 then Char.ofNat (97 + (n - 26))
  else if n < 62 then Char.ofNat (48 + (n - 52))
  else if n = 62 then '+' else '/'

/-- Sextet of one base64 character, the inverse of the base64 alphabet
used by the platform atob. -/
def charSextet (c : Char) : ℕ :=
  if c = '+' then 62
  else if c = '/' then 63
  else if c.toNat < 58 then c.toNat - 48 + 52
  else if c.toNat < 91 then c.toNat - 65
  else c.toNat - 97 + 26

/-- Model of the platform btoa on a latin1 binary string given by its
character codes: standard base64 with '=' padding. -/
def btoa : List ℕ → List Char
  | [] => []
  | [a] => [sextetChar (a / 4), sextetChar (a % 4 * 16), '=', '=']
  | [a, b] =>
      [sextetChar (a / 4), sextetChar (a % 4 * 16 + b / 16),
       sextetChar (b % 16 * 4), '=']
  | a :: b :: c :: rest =>
      sextetChar (a / 4) :: sextetChar (a % 4 * 16 + b / 16) ::
      sextetChar (b % 16 * 4 + c / 64) :: sextetChar (c % 64) :: btoa rest

/-- Model of the platform atob on well-formed base64 text, returning the
character codes of the decoded binary string. -/
def atob : List Char → List ℕ
  | c1 :: c2 :: c3 :: c4 :: rest =>
      if c3 = '=' then [charSextet c1 * 4 + charSextet c2 / 16]
      else if c4 = '=' then
        [charSextet c1 * 4 + charSextet c2 / 16,
         charSextet c2 % 16 * 16 + charSextet c3 / 4]
      else
        (charSextet c1 * 4 + charSextet c2 / 16) ::
        (charSextet c2 % 16 * 16 + charSextet c3 / 4) ::
        (charSextet c3 % 4 * 64 + charSextet c4) :: atob rest
  | _ => []

/-- The source helper encode: build a binary string from the bytes via
String.fromCharCode (identity on codes below 256) and apply btoa. -/
def encode (bytes : List ℕ) : List Char := btoa bytes

/-- The source helper decode: apply atob and read each character code
back with charCodeAt (identity on codes). -/
def decode (base64 : List Char) : List ℕ := atob base64

/-- Byte serialization of an Int16Array (new Uint8Array(int16.buffer)):
each signed 16-bit value contributes its two little-endian bytes, low
byte first. -/
def bytesOfInt16s : List ℤ → List ℕ
  | [] => []
  | n :: rest =>
      (n % 65536).toNat % 256 :: (n % 65536).toNat / 256 :: bytesOfInt16s rest

/-- Reading a byte buffer as an Int16Array (new Int16Array(data.buffer)):
consecutive little-endian pairs reinterpreted as signed 16-bit values. -/
def int16sOfBytes : List ℕ → List ℤ
  | lo :: hi :: rest => toInt16 ((lo : ℤ) + 256 * (hi : ℤ)) :: int16sOfBytes rest
  | _ => []

/-- The wire blob produced by createBlob. -/
structure GenAIBlob where
  data : List Char
  mimeType : String
  deriving DecidableEq

/-- createBlob: scale and truncate every float sample to a signed 16-bit
value, serialize the Int16Array to bytes, and base64-encode them. -/
def createBlob (data : List ℚ) : GenAIBlob :=
  { data := encode (bytesOfInt16s (data.map encodeSample))
    mimeType := "audio/pcm;rate=16000" }

/-- Decoded audio buffer (the AudioBuffer produced by decodeAudioData). -/
structure AudioBufferM where
  numChannels : ℕ
  sampleRate : ℚ
  frameCount : ℕ
  channels : List (List ℚ)
  deriving DecidableEq

/-- Duration of a buffer: frameCount / sampleRate. -/
def AudioBufferM.duration (b : AudioBufferM) : ℚ :=
  (b.frameCount : ℚ) / b.sampleRate

/-- decodeAudioData: read the bytes as interleaved signed 16-bit samples,
split them over the declared channel count, and normalize each sample by
dividing by 32768. -/
def decodeAudioData (data : List ℕ) (sampleRate : ℚ) (numChannels : ℕ) :
    AudioBufferM :=
  let dataInt16 := int16sOfBytes data
  let frameCount := dataInt16.length / numChannels
  { numChannels := numChannels
    sampleRate := sampleRate
    frameCount := frameCount
    channels := (List.range numChannels).map fun ch =>
      (List.range frameCount).map fun i =>
        decodeSample (dataInt16.getD (i * numChannels + ch) 0) }

/-! ### Arithmetic facts about the 16-bit wrap and truncation -/

lemma toInt16_eq_self {n : ℤ} (h1 : -32768 ≤ n) (h2 : n < 32768) :
    toInt16 n = n := by
  simp only [toInt16]
  split <;> omega

lemma toInt16_range (n : ℤ) : -32768 ≤ toInt16 n ∧ toInt16 n < 32768 := by
  simp only [toInt16]
  split <;> omega

lemma toInt16_wrap (n : ℤ) : toInt16 n = (n + 32768) % 65536 - 32768 := by
  simp only [toInt16]
  split <;> omega

lemma truncRat_eq_floor {x : ℚ} (h : 0 ≤ x) : truncRat x = ⌊x⌋ := by
  rw [truncRat, if_pos h, Rat.floor_def', Rat.floor_def]

lemma truncRat_eq_ceil {x : ℚ} (h : ¬ 0 ≤ x) : truncRat x = ⌈x⌉ := by
  rw [truncRat, if_neg h,
    show (-x).floor = ⌊-x⌋ from by rw [Rat.floor_def', Rat.floor_def],
    Int.floor_neg, neg_neg]

/-! ### base64 round trip -/

lemma charSextet_sextetChar : ∀ n, n < 64 → charSextet (sextetChar n) = n := by
  decide

lemma sextetChar_ne_pad : ∀ n, n < 64 → sextetChar n ≠ '=' := by
  decide

theorem atob_btoa : ∀ (l : List ℕ), (∀ x ∈ l, x < 256) → atob (btoa l) = l
  | [], _ => rfl
  | [a], h => by
      have ha : a < 256 := h a (by simp)
      simp only [btoa, atob, if_pos]
      rw [charSextet_sextetChar _ (by omega), charSextet_sextetChar _ (by omega)]
      simp only [List.cons.injEq, and_true]
      omega
  | [a, b], h => by
      have ha : a < 256 := h a (by simp)
      have hb : b < 256 := h b (by simp)
      simp only [btoa, atob]
      rw [if_neg (sextetChar_ne_pad _ (by omega)), if_true]
      rw [charSextet_sextetChar _ (by omega), charSextet_sextetChar _ (by omega),
        charSextet_sextetChar _ (by omega)]
      simp only [List.cons.injEq, and_true]
      omega
  | a :: b :: c :: rest, h => by
      have ha : a < 256 := h a (by simp)
      have hb : b < 256 := h b (by simp)
      have hc : c < 256 := h c (by simp)
      have IH := atob_btoa rest (fun x hx => h x (by simp [hx]))
      simp only [btoa, atob]
      rw [if_neg (sextetChar_ne_pad _ (by omega)), if_neg (sextetChar_ne_pad _ (by omega))]
      rw [charSextet_sextetChar _ (by omega), charSextet_sextetChar _ (by omega),
        charSextet_sextetChar _ (by omega), charSextet_sextetChar _ (by omega)]
      rw [IH]
      simp only [List.cons.injEq, and_true]
      omega

/-! ### Int16Array byte serialization round trip -/

lemma bytesOfInt16s_lt : ∀ (l : List ℤ), ∀ x ∈ bytesOfInt16s l, x < 256
  | [] => by simp [bytesOfInt16s]
  | n :: rest => by
      intro x hx
      simp only [bytesOfInt16s, List.mem_cons] at hx
      rcases hx with h | h | h
      · omega
      · omega
      · exact bytesOfInt16s_lt rest x h

lemma int16s_bytes_roundtrip :
    ∀ (l : List ℤ), (∀ n ∈ l, -32768 ≤ n ∧ n < 32768) →
      int16sOfBytes (bytesOfInt16s l) = l
  | [], _ => rfl
  | n :: rest, h => by
      have hn := h n (by simp)
      have IH := int16s_bytes_roundtrip rest (fun x hx => h x (by simp [hx]))
      simp only [bytesOfInt16s, int16sOfBytes]
      rw [IH]
      simp only [List.cons.injEq, and_true]
      simp only [toInt16]
      split <;> omega

/-! ### Mono channel extraction of decodeAudioData -/

lemma range_map_getD {α β : Type} (l : List α) (d : α) (f : α → β) :
    (List.range l.length).map (fun i => f (l.getD i d)) = l.map f := by
  induction l with
  | nil => rfl
  | cons a t ih =>
      simp only [List.length_cons, List.range_succ_eq_map, List.map_cons,
        List.map_map, List.getD_cons_zero]
      refine congrArg (List.cons (f a)) ?_
      have hfun : (fun i => f ((a :: t).getD i d)) ∘ Nat.succ =
          fun i => f (t.getD i d) := by
        funext i
        simp only [Function.comp_apply, List.getD_cons_succ]
      rw [hfun]
      exact ih

lemma decodeAudioData_one_channels (data : List ℕ) (sr : ℚ) :
    (decodeAudioData data sr 1).channels = [(int16sOfBytes data).map decodeSample] := by
  simp only [decodeAudioData, List.range_succ, List.range_zero, List.nil_append,
    List.map_cons, List.map_nil, Nat.div_one, mul_one, add_zero]
  rw [range_map_getD]

lemma createBlob_decode_channels (frame : List ℚ) :
    (decodeAudioData (decode (createBlob frame).data) 24000 1).channels =
      [frame.map encodeDecodeSample] := by
  have h1 : decode (createBlob frame).data = bytesOfInt16s (frame.map encodeSample) := by
    simp only [createBlob, encode, decode]
    exact atob_btoa _ (bytesOfInt16s_lt _)
  rw [decodeAudioData_one_channels, h1,
    int16s_bytes_roundtrip _ (fun n hn => by
      rcases List.mem_map.mp hn with ⟨x, _, rfl⟩
      exact toInt16_range _),
    List.map_map]
  rfl

/-! ### Per-sample quantization bound and wrap behaviour -/

lemma encodeDecodeSample_close {x : ℚ} (h1 : -1 ≤ x) (h2 : x < 1) :
    |encodeDecodeSample x - x| ≤ 1 / 32768 := by
  have hy1 : (-32768 : ℚ) ≤ x * 32768 := by nlinarith
  have hy2 : x * 32768 < 32768 := by nlinarith
  by_cases h0 : 0 ≤ x * 32768
  · rw [encodeDecodeSample, encodeSample, truncRat_eq_floor h0]
    have hfl : ((⌊x * 32768⌋ : ℤ) : ℚ) ≤ x * 32768 := Int.floor_le _
    have hfl2 : x * 32768 < ⌊x * 32768⌋ + 1 := Int.lt_floor_add_one _
    have htlo : (0 : ℤ) ≤ ⌊x * 32768⌋ := Int.floor_nonneg.mpr h0
    have hthi : ⌊x * 32768⌋ < 32768 := Int.floor_lt.mpr (by push_cast; exact hy2)
    rw [decodeSample, toInt16_eq_self (by omega) hthi, abs_le]
    constructor <;> nlinarith
  · rw [encodeDecodeSample, encodeSample, truncRat_eq_ceil h0]
    have hcl : x * 32768 ≤ ((⌈x * 32768⌉ : ℤ) : ℚ) := Int.le_ceil _
    have hcl2 : ((⌈x * 32768⌉ : ℤ) : ℚ) < x * 32768 + 1 := Int.ceil_lt_add_one _
    have hthi : ⌈x * 32768⌉ ≤ 0 := Int.ceil_le.mpr (by
      push_cast
      exact le_of_not_le h0)
    have htlo : (-32768 : ℤ) ≤ ⌈x * 32768⌉ := by
      have : ((-32768 : ℤ) : ℚ) ≤ ((⌈x * 32768⌉ : ℤ) : ℚ) := by
        push_cast
        linarith
      exact_mod_cast this
    rw [decodeSample, toInt16_eq_self htlo (by omega), abs_le]
    constructor <;> nlinarith

lemma encodeDecodeSample_wrap (x : ℚ) :
    encodeDecodeSample x =
      (((truncRat (x * 32768) + 32768) % 65536 - 32768 : ℤ) : ℚ) / 32768 := by
  rw [encodeDecodeSample, encodeSample, decodeSample, toInt16_wrap]

lemma encodeSample_one : encodeSample 1 = -32768 := by
  rw [encodeSample, show (1 : ℚ) * 32768 = ((32768 : ℤ) : ℚ) by norm_num,
    truncRat_eq_floor (by positivity), Int.floor_intCast]
  decide

lemma encodeDecodeSample_one : encodeDecodeSample 1 = -1 := by
  rw [encodeDecodeSample, encodeSample_one, decodeSample]
  norm_num

/-! ### Claim C1 -/

/-- C1 (counterexample to the claim as stated): the sample 1.0 lies in the
closed interval [-1, 1], yet the full createBlob / decodeAudioData round
trip maps the frame [1.0] to [-1.0], which differs from 1.0 by 2, far
more than one quantization step: the encoder wraps at 1.0 instead of
staying within 1/32768. -/
theorem roundtrip_fails_at_one :
    (-1 ≤ (1 : ℚ) ∧ (1 : ℚ) ≤ 1) ∧
    (decodeAudioData (decode (createBlob [(1 : ℚ)]).data) 24000 1).channels =
      [[(-1 : ℚ)]] ∧
    ¬ |(-1 : ℚ) - 1| ≤ 1 / 32768 := by
  refine ⟨⟨by norm_num, le_refl 1⟩, ?_, ?_⟩
  · rw [createBlob_decode_channels]
    simp [encodeDecodeSample_one]
  · rw [show ((-1 : ℚ) - 1) = -2 by norm_num, abs_of_nonpos (by norm_num)]
    norm_num

/-- C1 (amended): the createBlob / decodeAudioData round trip on a mono
frame recovers for every sample in the half-open interval [-1, 1) a value
within one quantization step 1/32768, and on every sample whatsoever it
returns the scaled-and-truncated value wrapped by 16-bit signed overflow
(so samples at or beyond the boundary wrap instead of clamping). -/
theorem roundtrip_within_one_step (frame : List ℚ) :
    (decodeAudioData (decode (createBlob frame).data) 24000 1).channels =
      [frame.map encodeDecodeSample] ∧
    (∀ x : ℚ, -1 ≤ x → x < 1 → |encodeDecodeSample x - x| ≤ 1 / 32768) ∧
    (∀ x : ℚ, encodeDecodeSample x =
      (((truncRat (x * 32768) + 32768) % 65536 - 32768 : ℤ) : ℚ) / 32768) :=
  ⟨createBlob_decode_channels frame,
   fun _ h1 h2 => encodeDecodeSample_close h1 h2,
   fun x => encodeDecodeSample_wrap x⟩

/-- C1 witness: the round trip bound evaluated at the concrete sample 1/2. -/
theorem roundtrip_within_one_step_witness :
    (-1 ≤ (1 : ℚ) / 2 ∧ (1 : ℚ) / 2 < 1) ∧
    |encodeDecodeSample ((1 : ℚ) / 2) - (1 : ℚ) / 2| ≤ 1 / 32768 :=
  ⟨⟨by norm_num, by norm_num⟩,
   (roundtrip_within_one_step []).2.1 ((1 : ℚ) / 2) (by norm_num) (by norm_num)⟩

/-! ### Claim C10 -/

/-- C10: the wire-text helpers are mutual inverses — decoding the base64
encoding of any byte list returns the same byte list, so the wire text
encoding loses no audio payload bytes. -/
theorem wire_text_roundtrip (b : List ℕ) (hb : ∀ x ∈ b, x < 256) :
    decode (encode b) = b :=
  atob_btoa b hb

/-- C10 witness: the round trip evaluated on a concrete byte list. -/
theorem wire_text_roundtrip_witness :
    decode (encode [0, 1, 127, 128, 254, 255]) = [0, 1, 127, 128, 254, 255] :=
  wire_text_roundtrip _ (by decide)

/-!
The LiveChat session state machine.

The component state bundles the React state (isSessionActive, error,
transcripts, currentInput, currentOutput) and the mutable refs
(sessionPromiseRef, mediaStreamRef, inputAudioContextRef,
outputAudioContextRef, scriptProcessorRef, mediaStreamSourceRef,
nextStartTimeRef, sourcesRef).  Platform objects (streams, contexts,
sessions, buffer source nodes) are identified by natural-number handles;
the actions the handlers perform on them are recorded as an effect list.

The capturedInput and capturedOutput fields model the JavaScript closure
semantics of the session callbacks: the onmessage handler registered by
startSession reads currentInput and currentOutput from the render scope
in which startSession was invoked, so the values it sees are the ones
current at session start, not later updates (only the functional
setState updates see the up-to-date values).  Messages are processed in
arrival order by a single consumer; the awaited decode inside the audio
branch is modelled as a synchronous decode.
-/

/-- One inbound server message, as read by the onmessage handler:
optional base64 audio payload, interruption flag, optional transcription
deltas for each side, and the turn-complete flag. -/
structure ServerMessage where
  audioData : Option (List Char)
  interrupted : Bool
  inputTranscription : Option String
  outputTranscription : Option String
  turnComplete : Bool
  deriving DecidableEq

/-- The full component state of LiveChat. -/
structure LiveChatState where
  isSessionActive : Bool
  error : Option String
  transcripts : List (String × String)
  currentInput : String
  currentOutput : String
  capturedInput : String
  capturedOutput : String
  sessionPromise : Option ℕ
  mediaStream : Option ℕ
  inputAudioContext : Option ℕ
  outputAudioContext : Option ℕ
  scriptProcessor : Option ℕ
  mediaStreamSource : Option ℕ
  nextStartTime : ℚ
  sources : List ℕ
  nextId : ℕ

/-- Observable actions the handlers perform on platform objects. -/
inductive Effect where
  | sendChunk (session : ℕ) (payload : List Char)
  | closeSession (session : ℕ)
  | stopTrack (stream : ℕ)
  | disconnectProcessor (p : ℕ)
  | disconnectSource (s : ℕ)
  | closeContext (c : ℕ)
  | stopSource (s : ℕ)
  | startSource (s : ℕ) (time : ℚ)
  deriving DecidableEq

/-- The state with no session, the initial value of every ref and state
hook. -/
def initialState : LiveChatState :=
  { isSessionActive := false
    error := none
    transcripts := []
    currentInput := ""
    currentOutput := ""
    capturedInput := ""
    capturedOutput := ""
    sessionPromise := none
    mediaStream := none
    inputAudioContext := none
    outputAudioContext := none
    scriptProcessor := none
    mediaStreamSource := none
    nextStartTime := 0
    sources := []
    nextId := 0 }

/-- stopSession: close the session if any, stop the stream tracks,
disconnect the processor and the source node, close both audio contexts,
stop every tracked buffer source, clear the tracked set, reset
nextStartTime to 0 and mark the session inactive.  Every ref is nulled;
a ref that is already null contributes no effect (the optional-chaining
guards of the source). -/
def stopSession (s : LiveChatState) : LiveChatState × List Effect :=
  ({ s with sessionPromise := none
            mediaStream := none
            scriptProcessor := none
            mediaStreamSource := none
            inputAudioContext := none
            outputAudioContext := none
            sources := []
            nextStartTime := 0
            isSessionActive := false },
   s.sessionPromise.toList.map Effect.closeSession ++
   s.mediaStream.toList.map Effect.stopTrack ++
   s.scriptProcessor.toList.map Effect.disconnectProcessor ++
   s.mediaStreamSource.toList.map Effect.disconnectSource ++
   s.inputAudioContext.toList.map Effect.closeContext ++
   s.outputAudioContext.toList.map Effect.closeContext ++
   s.sources.map Effect.stopSource)

/-- The success path of startSession: clear the error and the
transcription state, mark the session active, store the freshly acquired
stream, contexts and session promise.  The capturedInput and
capturedOutput fields record the render-scope values of currentInput and
currentOutput that the session callbacks close over.  No AlreadyActive
style guard exists in the source: the function runs the same way whether
or not a session is already active. -/
def startSessionOk (s : LiveChatState)
    (streamId inCtxId outCtxId sessionId : ℕ) : LiveChatState :=
  { s with error := none
           transcripts := []
           currentInput := ""
           currentOutput := ""
           isSessionActive := true
           capturedInput := s.currentInput
           capturedOutput := s.currentOutput
           mediaStream := some streamId
           inputAudioContext := some inCtxId
           outputAudioContext := some outCtxId
           sessionPromise := some sessionId }

/-- The onopen callback: create the media stream source and the script
processor and wire them up.  It runs only once the backend has signalled
readiness; if the input context has been torn down already, nothing is
wired. -/
def onopen (s : LiveChatState) : LiveChatState :=
  match s.inputAudioContext with
  | none => s
  | some _ =>
      { s with mediaStreamSource := some s.nextId
               scriptProcessor := some (s.nextId + 1)
               nextId := s.nextId + 2 }

/-- The onaudioprocess callback of the script processor: encode the
captured frame with createBlob and hand it to the session if the session
promise is still set; with the promise nulled the optional chaining
drops the chunk silently.  The callback can only fire while a script
processor exists.  The component state is never modified. -/
def onaudioprocess (s : LiveChatState) (frame : List ℚ) :
    LiveChatState × List Effect :=
  match s.scriptProcessor with
  | none => (s, [])
  | some _ =>
      match s.sessionPromise with
      | none => (s, [])
      | some sid => (s, [Effect.sendChunk sid (createBlob frame).data])

/-- The onmessage handler at output-clock time t, mirroring the source
order: (1) if the message carries audio, bump nextStartTime to at least
the current clock, decode the payload, start a fresh buffer source at
that time, advance nextStartTime by the buffer duration and track the
source; (2) if the message signals interruption, stop every tracked
source, clear the set and reset nextStartTime to 0; (3) append any input
transcription delta; (4) append any output transcription delta; (5) on
turn completion, append the (closure-captured) pending pair to the
transcripts and clear both pending buffers. -/
def onmessage (s : LiveChatState) (t : ℚ) (msg : ServerMessage) :
    LiveChatState × List Effect :=
  let p1 : LiveChatState × List Effect :=
    match msg.audioData with
    | none => (s, [])
    | some audioData =>
        let nst := max s.nextStartTime t
        let buf := decodeAudioData (decode audioData) 24000 1
        ({ s with nextStartTime := nst + buf.duration
                  sources := s.sources ++ [s.nextId]
                  nextId := s.nextId + 1 },
         [Effect.startSource s.nextId nst])
  let s1 := p1.1
  let p2 : LiveChatState × List Effect :=
    if msg.interrupted then
      ({ s1 with sources := []
                 nextStartTime := 0 }, s1.sources.map Effect.stopSource)
    else (s1, [])
  let s2 := p2.1
  let s3 :=
    match msg.inputTranscription with
    | some txt => { s2 with currentInput := s2.currentInput ++ txt }
    | none => s2
  let s4 :=
    match msg.outputTranscription with
    | some txt => { s3 with currentOutput := s3.currentOutput ++ txt }
    | none => s3
  let s5 :=
    if msg.turnComplete then
      { s4 with transcripts := s4.transcripts ++ [(s4.capturedInput, s4.capturedOutput)]
                currentInput := ""
                currentOutput := "" }
    else s4
  (s5, p1.2 ++ p2.2)

/-- The events driving the component: a click on start (with the handles
the acquisition returns), resolution of the session open, a capture
callback with a frame, an inbound server message at a clock time, the
natural end of a tracked source, a transport error, a transport close,
and a click on stop (which is also what disposal on unmount runs). -/
inductive Event where
  | startClicked (streamId inCtxId outCtxId sessionId : ℕ)
  | openResolved
  | audioProcess (frame : List ℚ)
  | message (t : ℚ) (msg : ServerMessage)
  | sourceEnded (id : ℕ)
  | errorEvent (m : String)
  | closeEvent
  | stopClicked
  deriving DecidableEq

/-- One event step of the component. -/
def step (s : LiveChatState) (e : Event) : LiveChatState × List Effect :=
  match e with
  | .startClicked streamId inCtxId outCtxId sessionId =>
      (startSessionOk s streamId inCtxId outCtxId sessionId, [])
  | .openResolved => (onopen s, [])
  | .audioProcess frame => onaudioprocess s frame
  | .message t msg => onmessage s t msg
  | .sourceEnded id => ({ s with sources := s.sources.erase id }, [])
  | .errorEvent m => stopSession { s with error := some ("Session error: " ++ m) }
  | .closeEvent => stopSession s
  | .stopClicked => stopSession s

/-- A run of the component over a list of events, accumulating effects. -/
def run (s : LiveChatState) : List Event → LiveChatState × List Effect
  | [] => (s, [])
  | e :: rest =>
      let p := step s e
      let q := run p.1 rest
      (q.1, p.2 ++ q.2)

/-- The scheduling loop distilled from the audio branch of onmessage:
given the running nextStartTime and the arriving buffers as pairs of
(output-clock time at arrival, duration), produce for each buffer the
pair (scheduled start, duration) where start = max nextStartTime clock
and the next nextStartTime is start + duration. -/
def scheduleAll : ℚ → List (ℚ × ℚ) → List (ℚ × ℚ)
  | _, [] => []
  | nextStartTime, e :: rest =>
      (max nextStartTime e.1, e.2) ::
        scheduleAll (max nextStartTime e.1 + e.2) rest

/-- A server message carrying only an audio payload. -/
def audioOnly (audioData : List Char) : ServerMessage :=
  { audioData := some audioData
    interrupted := false
    inputTranscription := none
    outputTranscription := none
    turnComplete := false }

/-- A server message carrying only the interruption flag. -/
def interruptOnly : ServerMessage :=
  { audioData := none
    interrupted := true
    inputTranscription := none
    outputTranscription := none
    turnComplete := false }

/-! ### Scheduling lemmas -/

lemma onmessage_audioOnly (s : LiveChatState) (t : ℚ) (audioData : List Char) :
    (onmessage s t (audioOnly audioData)).2 =
      [Effect.startSource s.nextId (max s.nextStartTime t)] ∧
    (onmessage s t (audioOnly audioData)).1.nextStartTime =
      max s.nextStartTime t +
        (decodeAudioData (decode audioData) 24000 1).duration ∧
    (onmessage s t (audioOnly audioData)).1.nextId = s.nextId + 1 ∧
    (onmessage s t (audioOnly audioData)).1.sources = s.sources ++ [s.nextId] := by
  simp [onmessage, audioOnly]

lemma scheduleAll_getD_snd :
    ∀ (evs : List (ℚ × ℚ)) (nst : ℚ) (i : ℕ), i < evs.length →
      ((scheduleAll nst evs).getD i (0, 0)).2 = (evs.getD i (0, 0)).2
  | [], _, i, h => by simp at h
  | e :: rest, nst, 0, _ => by simp [scheduleAll]
  | e :: rest, nst, i + 1, h => by
      have IH := scheduleAll_getD_snd rest (max nst e.1 + e.2) i (by
        simp only [List.length_cons] at h
        omega)
      simpa [scheduleAll] using IH

lemma scheduleAll_getD_succ :
    ∀ (evs : List (ℚ × ℚ)) (nst : ℚ) (i : ℕ), i + 1 < evs.length →
      (scheduleAll nst evs).getD (i + 1) (0, 0) =
        (max (((scheduleAll nst evs).getD i (0, 0)).1 +
              ((scheduleAll nst evs).getD i (0, 0)).2)
             ((evs.getD (i + 1) (0, 0)).1),
         (evs.getD (i + 1) (0, 0)).2)
  | [], _, i, h => by simp at h
  | [e], _, i, h => by
      simp only [List.length_singleton] at h
      omega
  | e1 :: e2 :: rest, nst, 0, _ => by
      simp [scheduleAll]
  | e1 :: e2 :: rest, nst, i + 1, h => by
      have IH := scheduleAll_getD_succ (e2 :: rest) (max nst e1.1 + e1.2) i (by
        simp only [List.length_cons] at h ⊢
        omega)
      simpa [scheduleAll] using IH

/-! ### Claim C2 -/

/-- C2: gapless playback scheduling.  The audio branch of onmessage
schedules each arriving buffer at max(nextStartTime, clock) and advances
nextStartTime by the buffer duration (last conjunct); consequently, over
any arrival sequence, the start of buffer k+1 equals the maximum of
buffer k's end and the arrival clock, is never below buffer k's end, and
equals buffer k's end exactly when the buffer arrives no later than that
end (arrival faster than real time). -/
theorem gapless_scheduling (nst : ℚ) (evs : List (ℚ × ℚ)) (i : ℕ)
    (h : i + 1 < evs.length) :
    ((scheduleAll nst evs).getD (i + 1) (0, 0)).1 =
      max (((scheduleAll nst evs).getD i (0, 0)).1 +
           ((scheduleAll nst evs).getD i (0, 0)).2)
          ((evs.getD (i + 1) (0, 0)).1) ∧
    ((scheduleAll nst evs).getD i (0, 0)).2 = (evs.getD i (0, 0)).2 ∧
    ((scheduleAll nst evs).getD i (0, 0)).1 +
        ((scheduleAll nst evs).getD i (0, 0)).2 ≤
      ((scheduleAll nst evs).getD (i + 1) (0, 0)).1 ∧
    ((evs.getD (i + 1) (0, 0)).1 ≤
        ((scheduleAll nst evs).getD i (0, 0)).1 +
          ((scheduleAll nst evs).getD i (0, 0)).2 →
      ((scheduleAll nst evs).getD (i + 1) (0, 0)).1 =
        ((scheduleAll nst evs).getD i (0, 0)).1 +
          ((scheduleAll nst evs).getD i (0, 0)).2) ∧
    (∀ (s : LiveChatState) (t : ℚ) (audioData : List Char),
      (onmessage s t (audioOnly audioData)).2 =
        [Effect.startSource s.nextId (max s.nextStartTime t)] ∧
      (onmessage s t (audioOnly audioData)).1.nextStartTime =
        max s.nextStartTime t +
          (decodeAudioData (decode audioData) 24000 1).duration) := by
  have key := scheduleAll_getD_succ evs nst i h
  refine ⟨by rw [key], scheduleAll_getD_snd evs nst i (by omega), ?_, ?_, ?_⟩
  · rw [key]
    exact le_max_left _ _
  · intro hle
    rw [key]
    exact max_eq_left hle
  · intro s t audioData
    exact ⟨(onmessage_audioOnly s t audioData).1,
      (onmessage_audioOnly s t audioData).2.1⟩

/-- C2 witness: the scheduling law applied to the concrete arrival
sequence [(clock 0, duration 2), (clock 1, duration 3)] starting from
nextStartTime 0. -/
theorem gapless_scheduling_witness :
    ((scheduleAll 0 [((0 : ℚ), (2 : ℚ)), (1, 3)]).getD 1 (0, 0)).1 =
      max (((scheduleAll 0 [((0 : ℚ), (2 : ℚ)), (1, 3)]).getD 0 (0, 0)).1 +
           ((scheduleAll 0 [((0 : ℚ), (2 : ℚ)), (1, 3)]).getD 0 (0, 0)).2)
          (([((0 : ℚ), (2 : ℚ)), (1, 3)].getD 1 (0, 0)).1) :=
  (gapless_scheduling 0 [((0 : ℚ), (2 : ℚ)), (1, 3)] 0 (by decide)).1

/-! ### Interruption lemmas -/

lemma onmessage_interrupted_state (s : LiveChatState) (t : ℚ)
    (msg : ServerMessage) (h : msg.interrupted = true) :
    (onmessage s t msg).1.sources = [] ∧
    (onmessage s t msg).1.nextStartTime = 0 := by
  rcases msg with ⟨ad, intr, it, ot, tc⟩
  dsimp only at h
  subst h
  cases ad <;> cases it <;> cases ot <;> cases tc <;> simp [onmessage]

lemma onmessage_interrupted_stops (s : LiveChatState) (t : ℚ)
    (msg : ServerMessage) (h : msg.interrupted = true) :
    ∀ id ∈ s.sources, Effect.stopSource id ∈ (onmessage s t msg).2 := by
  intro id hid
  rcases msg with ⟨ad, intr, it, ot, tc⟩
  dsimp only at h
  subst h
  cases ad <;> simp [onmessage]
  · exact hid
  · exact Or.inl hid

/-! ### Claim C3 -/

/-- C3: handling any message carrying the interrupted signal leaves the
tracked source set empty, emits a stop for every source that was
tracked, resets nextStartTime to 0, and thereby makes the next scheduled
buffer start exactly at the output clock time of its arrival (the
current time, which is never negative). -/
theorem interrupt_flushes_playback (s : LiveChatState) (t : ℚ)
    (msg : ServerMessage) (hmsg : msg.interrupted = true) :
    (onmessage s t msg).1.sources = [] ∧
    (onmessage s t msg).1.nextStartTime = 0 ∧
    (∀ id ∈ s.sources, Effect.stopSource id ∈ (onmessage s t msg).2) ∧
    (∀ (u : ℚ) (audioData : List Char), 0 ≤ u →
      (onmessage (onmessage s t msg).1 u (audioOnly audioData)).2 =
        [Effect.startSource (onmessage s t msg).1.nextId u]) := by
  have h1 := onmessage_interrupted_state s t msg hmsg
  refine ⟨h1.1, h1.2, onmessage_interrupted_stops s t msg hmsg, ?_⟩
  intro u audioData hu
  rw [(onmessage_audioOnly _ u audioData).1, h1.2, max_eq_right hu]

/-- C3 witness: the interruption handling applied at the initial state
and followed by a concrete audio message at clock time 1. -/
theorem interrupt_flushes_playback_witness :
    (onmessage initialState 0 interruptOnly).1.sources = [] ∧
    (onmessage initialState 0 interruptOnly).1.nextStartTime = 0 ∧
    (onmessage (onmessage initialState 0 interruptOnly).1 1 (audioOnly [])).2 =
      [Effect.startSource (onmessage initialState 0 interruptOnly).1.nextId 1] :=
  ⟨(interrupt_flushes_playback initialState 0 interruptOnly rfl).1,
   (interrupt_flushes_playback initialState 0 interruptOnly rfl).2.1,
   (interrupt_flushes_playback initialState 0 interruptOnly rfl).2.2.2 1 []
     (by norm_num)⟩

/-! ### Claim C9 -/

/-- C9: handling a pure interrupted signal modifies only the playback
state: the tracked set becomes empty and nextStartTime becomes 0, the
emitted effects are exactly the stops of the tracked sources, every
capture-side and UI field (stream, contexts, source node, script
processor, session promise, activity flag, error, transcripts, pending
text) is unchanged, and the capture callback afterwards sends exactly
what it would have sent before. -/
theorem interrupt_preserves_capture (s : LiveChatState) (t : ℚ) :
    (onmessage s t interruptOnly).1.mediaStream = s.mediaStream ∧
    (onmessage s t interruptOnly).1.inputAudioContext = s.inputAudioContext ∧
    (onmessage s t interruptOnly).1.outputAudioContext = s.outputAudioContext ∧
    (onmessage s t interruptOnly).1.mediaStreamSource = s.mediaStreamSource ∧
    (onmessage s t interruptOnly).1.scriptProcessor = s.scriptProcessor ∧
    (onmessage s t interruptOnly).1.sessionPromise = s.sessionPromise ∧
    (onmessage s t interruptOnly).1.isSessionActive = s.isSessionActive ∧
    (onmessage s t interruptOnly).1.error = s.error ∧
    (onmessage s t interruptOnly).1.transcripts = s.transcripts ∧
    (onmessage s t interruptOnly).1.currentInput = s.currentInput ∧
    (onmessage s t interruptOnly).1.currentOutput = s.currentOutput ∧
    (onmessage s t interruptOnly).1.sources = [] ∧
    (onmessage s t interruptOnly).1.nextStartTime = 0 ∧
    (onmessage s t interruptOnly).2 = s.sources.map Effect.stopSource ∧
    (∀ frame, (onaudioprocess (onmessage s t interruptOnly).1 frame).2 =
      (onaudioprocess s frame).2) := by
  refine ⟨rfl, rfl, rfl, rfl, rfl, rfl, rfl, rfl, rfl, rfl, rfl, rfl, rfl, ?_, ?_⟩
  · simp [onmessage, interruptOnly]
  · intro frame
    cases hsp : s.scriptProcessor <;> cases hss : s.sessionPromise <;>
      simp [onaudioprocess, onmessage, interruptOnly, hsp, hss]

/-! ### Claim C6 -/

/-- C6: stopSession is idempotent and safe before any start.  A second
call on the result of a first call changes nothing and performs no
effect; after any call the session is inactive, every resource handle is
nulled, the tracked set is empty and nextStartTime is reset, while the
error field is left exactly as it was (no error is raised); and calling
it on the initial, never-started state is a complete no-op. -/
theorem stop_idempotent_and_safe (s : LiveChatState) :
    stopSession (stopSession s).1 = ((stopSession s).1, []) ∧
    (stopSession s).1.isSessionActive = false ∧
    (stopSession s).1.sessionPromise = none ∧
    (stopSession s).1.mediaStream = none ∧
    (stopSession s).1.scriptProcessor = none ∧
    (stopSession s).1.mediaStreamSource = none ∧
    (stopSession s).1.inputAudioContext = none ∧
    (stopSession s).1.outputAudioContext = none ∧
    (stopSession s).1.sources = [] ∧
    (stopSession s).1.nextStartTime = 0 ∧
    (stopSession s).1.error = s.error ∧
    stopSession initialState = (initialState, []) :=
  ⟨rfl, rfl, rfl, rfl, rfl, rfl, rfl, rfl, rfl, rfl, rfl, rfl⟩

/-! ### Claim C8 -/

/-- C8: the capture-to-send path never fails into the capture callback.
With the session promise nulled (teardown raced ahead), the capture
callback is a complete no-op: same state, no effects, no error.  In
every case the callback leaves the component state untouched, a later
frame is processed exactly the same way (the stream is not terminated),
and the only effect it can ever emit is the asynchronous send of the
encoded chunk to the recorded session. -/
theorem send_noop_off_open (s : LiveChatState) (frame frame2 : List ℚ) :
    (s.sessionPromise = none → onaudioprocess s frame = (s, [])) ∧
    (onaudioprocess s frame).1 = s ∧
    onaudioprocess (onaudioprocess s frame).1 frame2 = onaudioprocess s frame2 ∧
    (∀ eff ∈ (onaudioprocess s frame).2, ∃ sid,
      s.sessionPromise = some sid ∧
      eff = Effect.sendChunk sid (createBlob frame).data) := by
  cases hsp : s.scriptProcessor <;> cases hss : s.sessionPromise <;>
    simp [onaudioprocess, hsp, hss]

/-- C8 witness: the silent no-op on the never-started state, whose
session reference is null. -/
theorem send_noop_off_open_witness :
    onaudioprocess initialState [] = (initialState, []) :=
  (send_noop_off_open initialState [] []).1 rfl

/-! ### No send before the session opens -/

lemma onmessage_scriptProcessor (s : LiveChatState) (t : ℚ)
    (msg : ServerMessage) :
    (onmessage s t msg).1.scriptProcessor = s.scriptProcessor := by
  rcases msg with ⟨ad, intr, it, ot, tc⟩
  cases ad <;> cases intr <;> cases it <;> cases ot <;> cases tc <;>
    simp [onmessage]

lemma onmessage_no_send (s : LiveChatState) (t : ℚ) (msg : ServerMessage) :
    ∀ eff ∈ (onmessage s t msg).2, ∀ sid d, eff ≠ Effect.sendChunk sid d := by
  intro eff heff sid d
  rcases msg with ⟨ad, intr, it, ot, tc⟩
  cases ad <;> cases intr <;> simp [onmessage] at heff
  · rcases heff with ⟨x, _, h⟩
    simp [← h]
  · simp [heff]
  · rcases heff with h | ⟨x, _, h⟩ | h
    · simp [h]
    · simp [← h]
    · simp [h]

lemma stopSession_no_send (s : LiveChatState) :
    ∀ eff ∈ (stopSession s).2, ∀ sid d, eff ≠ Effect.sendChunk sid d := by
  intro eff heff sid d
  simp [stopSession] at heff
  rcases heff with ⟨x, _, h⟩ | ⟨x, _, h⟩ | ⟨x, _, h⟩ | ⟨x, _, h⟩ | ⟨x, _, h⟩ |
    ⟨x, _, h⟩ | ⟨x, _, h⟩ <;> simp [← h]

lemma run_no_send :
    ∀ (evs : List Event) (s : LiveChatState),
      s.scriptProcessor = none → (∀ e ∈ evs, e ≠ Event.openResolved) →
      (run s evs).1.scriptProcessor = none ∧
      (∀ eff ∈ (run s evs).2, ∀ sid d, eff ≠ Effect.sendChunk sid d)
  | [], s, hsp, _ => ⟨hsp, by simp [run]⟩
  | e :: rest, s, hsp, hne => by
      have hstep : (step s e).1.scriptProcessor = none ∧
          (∀ eff ∈ (step s e).2, ∀ sid d, eff ≠ Effect.sendChunk sid d) := by
        cases e with
        | startClicked a b c d => simpa [step, startSessionOk] using hsp
        | openResolved => exact absurd rfl (hne _ (by simp))
        | audioProcess frame => simp [step, onaudioprocess, hsp]
        | message t m =>
            exact ⟨by rw [show step s (.message t m) = onmessage s t m from rfl,
              onmessage_scriptProcessor s t m, hsp], onmessage_no_send s t m⟩
        | sourceEnded id => simpa [step] using hsp
        | errorEvent m => exact ⟨rfl, stopSession_no_send _⟩
        | closeEvent => exact ⟨rfl, stopSession_no_send _⟩
        | stopClicked => exact ⟨rfl, stopSession_no_send _⟩
      have IH := run_no_send rest (step s e).1 hstep.1
        (fun x hx => hne x (by simp [hx]))
      refine ⟨IH.1, ?_⟩
      intro eff heff sid d
      rw [show (run s (e :: rest)).2 = (step s e).2 ++ (run (step s e).1 rest).2
        from rfl] at heff
      rcases List.mem_append.mp heff with h | h
      · exact hstep.2 eff h sid d
      · exact IH.2 eff h sid d

/-! ### Claim C7 -/

/-- C7: in every execution in which the open callback never fires, no
chunk is ever sent on the session: the capture-to-send pipeline is wired
only inside onopen, so as long as openResolved does not occur in the
event trace, the run emits no sendChunk effect whatsoever. -/
theorem capture_never_sends_before_open (evs : List Event)
    (h : Event.openResolved ∉ evs) :
    ∀ eff ∈ (run initialState evs).2, ∀ sid d,
      eff ≠ Effect.sendChunk sid d :=
  (run_no_send evs initialState rfl (fun _ he heq => h (heq ▸ he))).2

/-- C7 witness: a concrete trace that starts a session and receives a
capture callback before the open ever resolves emits no send. -/
theorem capture_never_sends_before_open_witness :
    Event.openResolved ∉
      [Event.startClicked 0 1 2 3, Event.audioProcess []] ∧
    ∀ eff ∈ (run initialState
        [Event.startClicked 0 1 2 3, Event.audioProcess []]).2,
      ∀ sid d, eff ≠ Effect.sendChunk sid d :=
  ⟨by decide, capture_never_sends_before_open _ (by decide)⟩

/-! ### Claim C4 -/

/-- C4 (evaluation at the failing input): starting a session (handles 0,
1, 2 and session 3), letting the open resolve, and then calling start a
second time with no intervening stop produces no error at all — there is
no AlreadyActive guard in startSession — and silently overwrites every
resource handle with the freshly acquired ones (stream 10, session 13)
while emitting no effect: the first session is neither closed nor
stopped, it is simply dropped from the refs. -/
theorem double_start_has_no_guard :
    (run initialState [Event.startClicked 0 1 2 3, Event.openResolved,
        Event.startClicked 10 11 12 13]).1.error = none ∧
    (run initialState [Event.startClicked 0 1 2 3, Event.openResolved,
        Event.startClicked 10 11 12 13]).1.sessionPromise = some 13 ∧
    (run initialState [Event.startClicked 0 1 2 3, Event.openResolved,
        Event.startClicked 10 11 12 13]).1.mediaStream = some 10 ∧
    (run initialState [Event.startClicked 0 1 2 3, Event.openResolved,
        Event.startClicked 10 11 12 13]).1.isSessionActive = true ∧
    (run initialState [Event.startClicked 0 1 2 3, Event.openResolved,
        Event.startClicked 10 11 12 13]).2 = [] :=
  ⟨rfl, rfl, rfl, rfl, rfl⟩

/-! ### Claim C5 -/

/-- A server message carrying only a user-side transcription delta. -/
def userDelta (txt : String) : ServerMessage :=
  { audioData := none
    interrupted := false
    inputTranscription := some txt
    outputTranscription := none
    turnComplete := false }

/-- A server message carrying only the turn-complete flag. -/
def turnCompleteMsg : ServerMessage :=
  { audioData := none
    interrupted := false
    inputTranscription := none
    outputTranscription := none
    turnComplete := true }

/-- The C5 scenario: start a session, let it open, receive the user
fragments "Hel" and "lo", then the turn-complete signal. -/
def staleTurnTrace : List Event :=
  [Event.startClicked 0 1 2 3, Event.openResolved,
   Event.message 0 (userDelta "Hel"), Event.message 0 (userDelta "lo"),
   Event.message 0 turnCompleteMsg]

/-- C5 (evaluation at the failing input): after a session starts (its
callbacks close over the render-time pending values, both empty) and the
user fragments "Hel" and "lo" arrive, the pending user buffer does hold
"Hello"; but the turn-complete signal appends the closure-captured pair
— the empty strings from session start — to the transcripts instead of
the accumulated fragments, and then clears both pending buffers.  The
emitted turn is ("", ""), not ("Hello", _). -/
theorem turn_complete_emits_stale_turn :
    (run initialState (staleTurnTrace.take 4)).1.currentInput = "Hello" ∧
    (run initialState staleTurnTrace).1.transcripts = [("", "")] ∧
    (run initialState staleTurnTrace).1.currentInput = "" ∧
    (run initialState staleTurnTrace).1.currentOutput = "" := by
  refine ⟨?_, ?_, ?_, ?_⟩ <;> rfl

end LiveChat
